import Mathlib

/-!
Verification of the skoap authentication filter package (Go) against its
natural-language specification, via a shallow embedding of `skoap.go` and
`cmd/skoap/main.go` into Lean.

Bytes are modelled as `Nat`, byte slices as `List Nat`, Go strings as Lean
`String` (and the raw `Authorization` header as `List Char`, matching Go's
byte-slice view of the header for the ASCII prefix `"Bearer "`).  Remote HTTP
calls are modelled by an oracle value describing the single outcome the
network would produce for this request.
-/

namespace Skoap

/-! ## Bounded body capture: `teeBody` (skoap.go lines 139-144, 434-466) -/

/-- The `teeBody` wrapper state: the remaining unread bytes of the wrapped
request body stream (`body`), the capture buffer contents (`buffer`), and
the remaining capture capacity (`maxTee`, an int: negative means
unlimited). -/
structure TeeBody where
  body : List Nat
  buffer : List Nat
  maxTee : Int
  deriving Repr, DecidableEq

/-- The `bytes.Buffer.Write`: appends `b` to the buffer and returns
`(len b, nil)`.  Per the Go standard library documentation the returned
error is always nil; we keep the error slot (`Option String`) so that the
caller's error-propagation branch in `teeBody.Write` can be embedded
faithfully. -/
def bufferWrite (buf b : List Nat) : List Nat × Nat × Option String :=
  (buf ++ b, b.length, none)

/-- The `newTeeBody` (skoap.go lines 434-442): fresh empty buffer, cap
`maxTee`, wrapping the stream `rc`. -/
def newTeeBody (rc : List Nat) (maxTee : Int) : TeeBody :=
  { body := rc, buffer := [], maxTee := maxTee }

/-- The `teeBody.Write` (skoap.go lines 447-466).  Returns the updated wrapper
state together with the reported `(n, err)` pair.  When `maxTee < 0`
everything is buffered; otherwise only the first `wl = min (len b) maxTee`
bytes are buffered, the capacity is decreased by the buffered count, and
the call still reports `(len b, nil)` ("lie to avoid short write"). -/
def teeBodyWrite (tb : TeeBody) (b : List Nat) : TeeBody × Nat × Option String :=
  if tb.maxTee < 0 then
    let (buf, n, e) := bufferWrite tb.buffer b
    ({ tb with buffer := buf }, n, e)
  else
    let wl : Nat := if (b.length : Int) ≥ tb.maxTee then tb.maxTee.toNat else b.length
    let (buf, n, e) := bufferWrite tb.buffer (b.take wl)
    match e with
    | some err => ({ tb with buffer := buf }, n, some err)
    | none => ({ tb with buffer := buf, maxTee := tb.maxTee - n }, b.length, none)

/-- The `teeBody.Read` (skoap.go line 444) through the `io.TeeReader`: takes up
to `n` bytes from the wrapped stream, mirrors exactly those bytes into the
wrapper via `teeBody.Write`, and hands them to the caller.  (The tee reader
propagates the bytes untouched because `teeBody.Write` always reports a
full successful write.) -/
def teeBodyRead (tb : TeeBody) (n : Nat) : TeeBody × List Nat :=
  let chunk := tb.body.take n
  let tb' := { tb with body := tb.body.drop n }
  ((teeBodyWrite tb' chunk).1, chunk)

/-- A downstream consumer performing a sequence of reads of the given
sizes against the wrapper. -/
def consumeReads (tb : TeeBody) : List Nat → TeeBody
  | [] => tb
  | n :: ns => consumeReads (teeBodyRead tb n).1 ns

/-! ## Audit log filter (skoap.go lines 134-137, 468-530) -/

/-- The `auditLog.Request` (skoap.go lines 486-490): when `maxBodyLog` is
non-zero the request body is wrapped in a fresh `teeBody`; when it is zero
no wrapper is installed. -/
def auditLogRequest (maxBodyLog : Int) (body : List Nat) : Option TeeBody :=
  if maxBodyLog ≠ 0 then some (newTeeBody body maxBodyLog) else none

/-- The body-draining step of `auditLog.Response` (skoap.go lines 513-518):
`io.Copy(tb.buffer, tb.body)` when `maxTee < 0` (whole remainder), else
`io.CopyN(tb.buffer, tb.body, int64(tb.maxTee))` (at most `maxTee` more
bytes).  Both copy straight into the buffer, bypassing `teeBody.Write`. -/
def drainTee (tb : TeeBody) : TeeBody :=
  if tb.maxTee < 0 then
    { tb with buffer := tb.buffer ++ tb.body, body := [] }
  else
    { tb with buffer := tb.buffer ++ tb.body.take tb.maxTee.toNat,
              body := tb.body.drop tb.maxTee.toNat }

/-! ## Credential extraction and set intersection (skoap.go 166-174, 199-209) -/

/-- The byte sequence of the constant `b = "Bearer "` in `getToken`. -/
def bearerPrefix : List Char := "Bearer ".toList

/-- The `getToken` (skoap.go lines 166-174): the raw `Authorization` header
value must start with `"Bearer "`; the remainder is the token, otherwise
the call fails (`errInvalidAuthorizationHeader`, modelled as `none`). -/
def getToken (h : List Char) : Option (List Char) :=
  if bearerPrefix.isPrefixOf h then some (h.drop bearerPrefix.length) else none

/-- The `intersect` (skoap.go lines 199-209): nested loops returning true at
the first pair of equal strings. -/
def intersect (left right : List String) : Bool :=
  left.any fun l => right.any fun r => l = r

/-! ## Remote calls: `jsonGet`, auth client, team client (skoap.go 211-254) -/

/-- The distinct Go error values that `jsonGet` can produce: an error from
`http.DefaultClient.Do` (transport failure), the sentinel `errInvalidToken`
for a non-200 status, or a JSON decoding error for a malformed body.  Only
`errInvalidToken` is compared against by `filter.Request`. -/
inductive JsonGetError where
  | transportErr
  | invalidTokenErr
  | decodeErr
  deriving Repr, DecidableEq

/-- Abstract outcome of the single HTTP GET a `jsonGet` call performs:
either the transport fails, or a response arrives with a status code and a
body that decodes to an `α` (`some`) or is malformed (`none`). -/
inductive HttpOutcome (α : Type) where
  | transport
  | response (status : Nat) (body : Option α)
  deriving Repr, DecidableEq

/-- The `jsonGet` (skoap.go lines 211-233): a transport failure is returned
as-is; a response with status ≠ 200 yields `errInvalidToken`; otherwise the
body is decoded, a decoding failure being returned as-is. -/
def jsonGet {α : Type} (o : HttpOutcome α) : Except JsonGetError α :=
  match o with
  | .transport => .error .transportErr
  | .response status body =>
    if status ≠ 200 then .error .invalidTokenErr
    else
      match body with
      | none => .error .decodeErr
      | some a => .ok a

/-- The `authDoc` (skoap.go lines 108-112): the decoded identity document. -/
structure AuthDoc where
  uid : String
  realm : String
  scopes : List String
  deriving Repr, DecidableEq

/-- The `teamDoc` (skoap.go lines 114-116): one item of the team service's
response. -/
structure TeamDoc where
  id : String
  deriving Repr, DecidableEq

/-- The `authClient.validate` (skoap.go lines 235-239) is `jsonGet` into an
`authDoc`; the outer call only looks at the error, so we expose the
`Except` directly. -/
def validate (o : HttpOutcome AuthDoc) : Except JsonGetError AuthDoc :=
  jsonGet o

/-- The `teamClient.getTeams` (skoap.go lines 241-254): `jsonGet` into a list
of `teamDoc`, then project the `id` fields; on error return `(nil, err)`. -/
def getTeams (o : HttpOutcome (List TeamDoc)) : Except JsonGetError (List String) :=
  match jsonGet o with
  | .error e => .error e
  | .ok t => .ok (t.map TeamDoc.id)

/-! ## The auth/authTeam filter (skoap.go 78-102, 124-130, 322-393) -/

/-- The `roleCheckType` (skoap.go lines 78-83). -/
inductive RoleCheckType where
  | checkScope
  | checkTeam
  deriving Repr, DecidableEq

/-- The `rejectReason` (skoap.go lines 85-95). -/
inductive RejectReason where
  | missingBearerToken
  | authServiceAccess
  | invalidToken
  | invalidRealm
  | invalidScope
  | teamServiceAccess
  | invalidTeam
  deriving Repr, DecidableEq

/-- The string constants behind `rejectReason` (skoap.go lines 87-95). -/
def rejectReasonString : RejectReason → String
  | .missingBearerToken => "missing-bearer-token"
  | .authServiceAccess => "auth-service-access"
  | .invalidToken => "invalid-token"
  | .invalidRealm => "invalid-realm"
  | .invalidScope => "invalid-scope"
  | .teamServiceAccess => "team-service-access"
  | .invalidTeam => "invalid-team"

/-- The per-instance filter configuration (skoap.go lines 124-130): check
kind, realm (`""` = no realm check) and the check-values list `args`. -/
structure Filter where
  typ : RoleCheckType
  realm : String
  args : List String
  deriving Repr, DecidableEq

/-- The `filter.validateRealm` (skoap.go lines 322-328). -/
def validateRealm (f : Filter) (a : AuthDoc) : Bool :=
  if f.realm = "" then true else a.realm = f.realm

/-- The `filter.validateScope` (skoap.go lines 330-336). -/
def validateScope (f : Filter) (a : AuthDoc) : Bool :=
  if f.args.length = 0 then true else intersect f.args a.scopes

/-- The `filter.validateTeam` (skoap.go lines 338-345): with no configured
team values pass without calling the team service; otherwise call
`getTeams` once and return `(intersect f.args teams, err)` — on error the
returned team list is `nil`.  The second component reports the error, the
third counts performed team-service calls. -/
def validateTeam (f : Filter) (o : HttpOutcome (List TeamDoc)) :
    Bool × Option JsonGetError × Nat :=
  if f.args.length = 0 then (true, none, 0)
  else
    match getTeams o with
    | .error e => (intersect f.args [], some e, 1)
    | .ok teams => (intersect f.args teams, none, 1)

/-- The observable effects of one `filter.Request` execution, in order:
calls to the remote services, and the writes into the per-request state
bag (`unauthorized` writes user + reason and serves a 401 short-circuiting
the backend, skoap.go lines 176-180; `authorized` writes the user,
lines 182-184). -/
inductive FilterEvent where
  | callAuthService
  | callTeamService
  | writeUnauthorized (uname : String) (reason : RejectReason)
  | writeAuthorized (uname : String)
  deriving Repr, DecidableEq

/-- Whether an event is one of the two state-bag decision writes. -/
def FilterEvent.isWrite : FilterEvent → Bool
  | .writeUnauthorized _ _ => true
  | .writeAuthorized _ => true
  | _ => false

/-- The `filter.Request` (skoap.go lines 348-393) as the ordered list of its
observable effects, given the raw `Authorization` header and the oracle
outcomes of the (at most one) auth-service call and the (at most one)
team-service call.  The request itself is never mutated by this function
(the source only reads `ctx.Request()`), so no request component appears
in the result. -/
def filterRequest (f : Filter) (authHeader : List Char)
    (authO : HttpOutcome AuthDoc) (teamO : HttpOutcome (List TeamDoc)) :
    List FilterEvent :=
  match getToken authHeader with
  | none => [.writeUnauthorized "" .missingBearerToken]
  | some _token =>
    .callAuthService ::
    match validate authO with
    | .error e =>
      [.writeUnauthorized ""
        (if e = .invalidTokenErr then .invalidToken else .authServiceAccess)]
    | .ok a =>
      if ¬ validateRealm f a then [.writeUnauthorized a.uid .invalidRealm]
      else if f.typ = .checkScope then
        if ¬ validateScope f a then [.writeUnauthorized a.uid .invalidScope]
        else [.writeAuthorized a.uid]
      else
        match validateTeam f teamO with
        | (valid, err, calls) =>
          (List.replicate calls .callTeamService) ++
          match err with
          | some _ => [.writeUnauthorized a.uid .teamServiceAccess]
          | none =>
            if ¬ valid then [.writeUnauthorized a.uid .invalidTeam]
            else [.writeAuthorized a.uid]

/-! ## Audit record builder: `auditLog.Response` (skoap.go 146-158, 492-530) -/

/-- The `authStatusDoc` (skoap.go lines 146-150). -/
structure AuthStatusDoc where
  user : String
  rejected : Bool
  reason : String
  deriving Repr, DecidableEq

/-- The `auditDoc` (skoap.go lines 152-158).  The two `omitempty` optional
fields are modelled as `Option`: `authStatus` is emitted iff the pointer is
non-nil, `requestBody` iff the string is non-empty — which coincides with
the code only assigning it a non-empty value. -/
structure AuditDoc where
  method : String
  path : String
  status : Nat
  authStatus : Option AuthStatusDoc
  requestBody : Option (List Nat)
  deriving Repr, DecidableEq

/-- The two state-bag entries `auditLog.Response` reads; `none` models an
absent key (or a non-string value), which the type assertion
`sb[k].(string)` turns into `""`. -/
structure StateBag where
  authUser : Option String
  rejectReason : Option String
  deriving Repr, DecidableEq

/-- The defaulted type assertion `v, _ := sb[k].(string)`. -/
def bagString : Option String → String
  | some s => s
  | none => ""

/-- The original inbound request's fields that `auditLog.Response` reads
via `ctx.OriginalRequest()`. -/
structure OrigRequest where
  method : String
  path : String
  deriving Repr, DecidableEq

/-- The `auditLog.Response` (skoap.go lines 492-530): builds the audit record
from the original request's method and path, the response status, the
state bag, and — when the current request's body is a `teeBody` wrapper
(`reqBody = some tb`) — the capture buffer after draining the unread
remainder of the body into it. -/
def auditLogResponse (reqBody : Option TeeBody) (oreq : OrigRequest)
    (status : Nat) (sb : StateBag) : AuditDoc :=
  let au := bagString sb.authUser
  let rr := bagString sb.rejectReason
  let authStatus : Option AuthStatusDoc :=
    if au ≠ "" ∨ rr ≠ "" then
      some { user := au,
             rejected := rr ≠ "",
             reason := rr }
    else none
  let requestBody : Option (List Nat) :=
    match reqBody with
    | some tb =>
      let tb := drainTee tb
      if tb.buffer.length > 0 then some tb.buffer else none
    | none => none
  { method := oreq.method, path := oreq.path, status := status,
    authStatus := authStatus, requestBody := requestBody }

/-! ## Single-route filter chain assembly (cmd/skoap/main.go 199-238) -/

/-- Request headers as an association list of name/value pairs. -/
abbrev Headers := List (String × String)

/-- Modelled from the spec: skipper's builtin `dropRequestHeader` filter
(referenced as `builtin.DropRequestHeaderName` in cmd/skoap/main.go lines
229-233) removes the named header from the outgoing request.  Its
implementation lives in the skipper dependency, outside this repository;
the spec describes the effect as the credential header being "removed from
the request before it can reach the backend". -/
def dropRequestHeader (hname : String) (hs : Headers) : Headers :=
  hs.filter fun p => p.1 ≠ hname

/-- The effect of the auth filter's request phase on the request itself:
`filter.Request` (skoap.go lines 348-393) reads the `Authorization` header
and writes only to the state bag and the served response, never to the
request, so the request passes through unchanged. -/
def authFilterOnRequest (hs : Headers) : Headers := hs

/-- The composite effect on the forwarded request's headers of the filter
chain that `main` assembles in single-route mode (cmd/skoap/main.go lines
226-233): the auth (or authTeam) filter, followed — unless
`-preserve-header` is set — by `dropRequestHeader("Authorization")`.
Applies on the success path, where the auth filter does not short-circuit
the request. -/
def singleRouteForwardHeaders (preserveHeader : Bool) (hs : Headers) : Headers :=
  let hs := authFilterOnRequest hs
  if ¬ preserveHeader then dropRequestHeader "Authorization" hs else hs

/-! ## Helper lemmas -/

/-- Closed form of `teeBodyWrite` when the remaining capacity is
non-negative: the first `min (len b) maxTee` bytes are appended to the
buffer, the capacity drops by that amount, and `(len b, nil)` is
reported. -/
lemma teeBodyWrite_nonneg (tb : TeeBody) (b : List Nat) (h : 0 ≤ tb.maxTee) :
    teeBodyWrite tb b =
      ({ tb with buffer := tb.buffer ++ b.take (min b.length tb.maxTee.toNat),
                 maxTee := tb.maxTee - min b.length tb.maxTee.toNat }, b.length, none) := by
  have hnot : ¬ tb.maxTee < 0 := not_lt.mpr h
  have hwl : (if (b.length : Int) ≥ tb.maxTee then tb.maxTee.toNat else b.length)
      = min b.length tb.maxTee.toNat := by
    split_ifs with h1 <;> omega
  have hlen : (b.take (min b.length tb.maxTee.toNat)).length
      = min b.length tb.maxTee.toNat := by
    rw [List.length_take]; omega
  simp only [teeBodyWrite, bufferWrite, if_neg hnot, hwl, hlen]

/-- The `intersect` decides exactly whether the two lists share an
exactly-equal string. -/
lemma intersect_iff (l r : List String) :
    intersect l r = true ↔ ∃ s, s ∈ l ∧ s ∈ r := by
  simp only [intersect, List.any_eq_true, decide_eq_true_eq]
  constructor
  · rintro ⟨x, hx, y, hy, rfl⟩
    exact ⟨x, hx, hy⟩
  · rintro ⟨s, hs, hr⟩
    exact ⟨s, hs, s, hr, rfl⟩

/-- The `getToken` succeeds with token `t` exactly when the header is
`"Bearer "` followed by `t`. -/
lemma getToken_eq_some_iff (h t : List Char) :
    getToken h = some t ↔ h = bearerPrefix ++ t := by
  unfold getToken
  by_cases hp : bearerPrefix.isPrefixOf h
  · rw [if_pos hp]
    have hpre : bearerPrefix ++ h.drop bearerPrefix.length = h :=
      List.prefix_iff_eq_append.mp ( List.isPrefixOf_iff_prefix.mp hp)
    constructor
    · intro he
      obtain rfl : h.drop bearerPrefix.length = t := Option.some.inj he
      exact hpre.symm
    · intro he
      subst he
      rw [List.drop_left]
  · rw [if_neg hp]
    constructor
    · intro he
      exact absurd he (by simp)
    · intro he
      subst he
      exact absurd ( List.isPrefixOf_iff_prefix.mpr (List.prefix_append _ _)) hp

/-! ## Claim theorems -/

/-- C1: a `Write` on an installed capture wrapper with remaining capacity
`r ≥ 0` reports a successful write of length `len b` (returns `len b` and
no error), retains exactly the first `min (len b) r` bytes of `b`, and
decreases the remaining capacity by the retained count; with unlimited
capture (`maxTee < 0`) every `Write` retains all of `b` and reports
`len b`. -/
theorem teeBody_write_bounded_spec (tb : TeeBody) (b : List Nat) :
    (0 ≤ tb.maxTee →
      teeBodyWrite tb b =
        ({ tb with buffer := tb.buffer ++ b.take (min b.length tb.maxTee.toNat),
                   maxTee := tb.maxTee - min b.length tb.maxTee.toNat }, b.length, none)) ∧
    (tb.maxTee < 0 →
      teeBodyWrite tb b = ({ tb with buffer := tb.buffer ++ b }, b.length, none)) := by
  constructor
  · intro h
    exact teeBodyWrite_nonneg tb b h
  · intro h
    simp [teeBodyWrite, bufferWrite, if_pos h]

/-- Witness for C1: a concrete bounded write (capacity 3, input of 5
bytes, 3 bytes retained, reported length 5) and a concrete unlimited
write. -/
theorem teeBody_write_bounded_spec_witness :
    teeBodyWrite { body := [], buffer := [7], maxTee := 3 } [1, 2, 3, 4, 5]
        = ({ body := [], buffer := [7, 1, 2, 3], maxTee := 0 }, 5, none) ∧
      teeBodyWrite { body := [], buffer := [], maxTee := -1 } [1, 2]
        = ({ body := [], buffer := [1, 2], maxTee := -1 }, 2, none) := by
  constructor
  · rw [(teeBody_write_bounded_spec { body := [], buffer := [7], maxTee := 3 }
      [1, 2, 3, 4, 5]).1 (by decide)]
    decide
  · rw [(teeBody_write_bounded_spec { body := [], buffer := [], maxTee := -1 }
      [1, 2]).2 (by decide)]
    decide

/-- C10: `teeBody.Write` is total and never fails: for every input slice
and every capacity state it returns a nil error and a count equal to the
input length. -/
theorem teeBody_write_total (tb : TeeBody) (b : List Nat) :
    (teeBodyWrite tb b).2.1 = b.length ∧ (teeBodyWrite tb b).2.2 = none := by
  rcases lt_or_le tb.maxTee 0 with h | h
  · simp [teeBodyWrite, bufferWrite, if_pos h]
  · rw [teeBodyWrite_nonneg tb b h]
    exact ⟨rfl, rfl⟩

/-- C6: a request whose `Authorization` header does not begin with the
case-sensitive prefix `"Bearer "` is rejected with
`missing-bearer-token` and an empty user id, by a trace consisting of
that single state-bag write — so neither the identity service nor the
team service is called and the request is served directly (the backend is
never reached); when the prefix is present the extracted token is exactly
the remainder of the header after the prefix, which may be empty. -/
theorem filter_missing_bearer_spec (f : Filter) (h : List Char)
    (authO : HttpOutcome AuthDoc) (teamO : HttpOutcome (List TeamDoc)) :
    (¬ bearerPrefix.isPrefixOf h →
      filterRequest f h authO teamO =
        [.writeUnauthorized "" .missingBearerToken]) ∧
    (∀ t, getToken h = some t ↔ h = bearerPrefix ++ t) ∧
    (getToken h = none ↔ ¬ bearerPrefix.isPrefixOf h) := by
  refine ⟨?_, fun t => getToken_eq_some_iff h t, ?_⟩
  · intro hp
    have hg : getToken h = none := by
      unfold getToken
      rw [if_neg hp]
    unfold filterRequest
    rw [hg]
  · unfold getToken
    by_cases hp : bearerPrefix.isPrefixOf h <;> simp [hp]

/-- Witness for C6: the headers `"Basic xyz"` (wrong scheme) and `""`
(missing) are rejected with `missing-bearer-token`; `"Bearer "` alone
yields the empty token. -/
theorem filter_missing_bearer_spec_witness :
    filterRequest { typ := .checkScope, realm := "", args := [] }
        "Basic xyz".toList .transport .transport
      = [.writeUnauthorized "" .missingBearerToken] ∧
    filterRequest { typ := .checkScope, realm := "", args := [] }
        "".toList .transport .transport
      = [.writeUnauthorized "" .missingBearerToken] ∧
    getToken "Bearer ".toList = some [] := by
  refine ⟨?_, ?_, ?_⟩
  · exact (filter_missing_bearer_spec { typ := .checkScope, realm := "", args := [] }
      "Basic xyz".toList .transport .transport).1 (by decide)
  · exact (filter_missing_bearer_spec { typ := .checkScope, realm := "", args := [] }
      "".toList .transport .transport).1 (by decide)
  · exact ((filter_missing_bearer_spec { typ := .checkScope, realm := "", args := [] }
      "Bearer ".toList .transport .transport).2.1 []).mpr (by decide)

/-- C4: once a bearer token has been extracted, an identity-service
response with status ≠ 200 yields the reject reason `invalid-token`,
while a transport failure or a malformed (undecodable) response body
yields `auth-service-access`; the two reasons are distinct values with
distinct wire strings, though each produces the same single unauthorized
write. -/
theorem filter_auth_error_spec (f : Filter) (h t : List Char)
    (teamO : HttpOutcome (List TeamDoc)) (ht : getToken h = some t) :
    (∀ (s : Nat) (b : Option AuthDoc), s ≠ 200 →
      filterRequest f h (.response s b) teamO =
        [.callAuthService, .writeUnauthorized "" .invalidToken]) ∧
    (filterRequest f h .transport teamO =
      [.callAuthService, .writeUnauthorized "" .authServiceAccess]) ∧
    (filterRequest f h (.response 200 none) teamO =
      [.callAuthService, .writeUnauthorized "" .authServiceAccess]) ∧
    (RejectReason.invalidToken ≠ RejectReason.authServiceAccess ∧
      rejectReasonString .invalidToken ≠ rejectReasonString .authServiceAccess) := by
  refine ⟨?_, ?_, ?_, by decide, by decide⟩
  · intro s b hs
    unfold filterRequest
    simp [ht, validate, jsonGet, hs]
  · unfold filterRequest
    simp [ht, validate, jsonGet]
  · unfold filterRequest
    simp [ht, validate, jsonGet]

/-- Witness for C4: a concrete 401 response yields `invalid-token`; a
transport failure yields `auth-service-access`. -/
theorem filter_auth_error_spec_witness :
    filterRequest { typ := .checkScope, realm := "", args := [] }
        "Bearer t".toList (.response 401 none) .transport
      = [.callAuthService, .writeUnauthorized "" .invalidToken] ∧
    filterRequest { typ := .checkScope, realm := "", args := [] }
        "Bearer t".toList .transport .transport
      = [.callAuthService, .writeUnauthorized "" .authServiceAccess] := by
  refine ⟨?_, ?_⟩
  · exact (filter_auth_error_spec { typ := .checkScope, realm := "", args := [] }
      "Bearer t".toList "t".toList .transport (by decide)).1 401 none (by decide)
  · exact (filter_auth_error_spec { typ := .checkScope, realm := "", args := [] }
      "Bearer t".toList "t".toList .transport (by decide)).2.1

/-- C7: in a scope-kind filter evaluation that reaches the scope check
(token extracted, identity validated, realm passed) with non-empty
configured check-values, the decision is Authorized iff the check-values
and the identity document's scopes share at least one exactly-equal
string, and otherwise the request is rejected with `invalid-scope`; with
empty check-values the scope check passes unconditionally. -/
theorem filter_scope_check_spec (f : Filter) (h t : List Char) (a : AuthDoc)
    (authO : HttpOutcome AuthDoc) (teamO : HttpOutcome (List TeamDoc))
    (htyp : f.typ = .checkScope) (ht : getToken h = some t)
    (ha : validate authO = .ok a) (hr : validateRealm f a = true) :
    (f.args = [] →
      filterRequest f h authO teamO = [.callAuthService, .writeAuthorized a.uid]) ∧
    (f.args ≠ [] →
      (filterRequest f h authO teamO = [.callAuthService, .writeAuthorized a.uid]
        ↔ ∃ s, s ∈ f.args ∧ s ∈ a.scopes) ∧
      ((¬ ∃ s, s ∈ f.args ∧ s ∈ a.scopes) →
        filterRequest f h authO teamO =
          [.callAuthService, .writeUnauthorized a.uid .invalidScope])) := by
  have hpos : validateScope f a = true →
      filterRequest f h authO teamO = [.callAuthService, .writeAuthorized a.uid] := by
    intro hs
    unfold filterRequest
    rw [ht, ha]
    simp [hr, htyp, hs]
  have hneg : validateScope f a = false →
      filterRequest f h authO teamO =
        [.callAuthService, .writeUnauthorized a.uid .invalidScope] := by
    intro hs
    unfold filterRequest
    rw [ht, ha]
    simp [hr, htyp, hs]
  constructor
  · intro hargs
    exact hpos (by simp [validateScope, hargs])
  · intro hargs
    have hval : validateScope f a = intersect f.args a.scopes := by
      rw [validateScope, if_neg (by simpa using hargs)]
    cases hbool : intersect f.args a.scopes with
    | false =>
      have hnex : ¬ ∃ s, s ∈ f.args ∧ s ∈ a.scopes := by
        intro hex
        rw [(intersect_iff f.args a.scopes).mpr hex] at hbool
        exact Bool.true_eq_false.mp hbool
      have htr := hneg (hval.trans hbool)
      refine ⟨?_, fun _ => htr⟩
      rw [htr]
      simp [hnex]
    | true =>
      have hex := (intersect_iff f.args a.scopes).mp hbool
      have htr := hpos (hval.trans hbool)
      refine ⟨?_, fun hnex => absurd hex hnex⟩
      rw [htr]
      simp [hex]

/-- Witness for C7: with check-values `["s1"]` and scopes `["s0", "s1"]`
the request is authorized; with scopes `["s2"]` it is rejected with
`invalid-scope`; with empty check-values it is authorized. -/
theorem filter_scope_check_spec_witness :
    filterRequest { typ := .checkScope, realm := "", args := ["s1"] }
        "Bearer t".toList
        (.response 200 (some { uid := "u", realm := "/r", scopes := ["s0", "s1"] }))
        .transport
      = [.callAuthService, .writeAuthorized "u"] ∧
    filterRequest { typ := .checkScope, realm := "", args := ["s1"] }
        "Bearer t".toList
        (.response 200 (some { uid := "u", realm := "/r", scopes := ["s2"] }))
        .transport
      = [.callAuthService, .writeUnauthorized "u" .invalidScope] ∧
    filterRequest { typ := .checkScope, realm := "", args := [] }
        "Bearer t".toList
        (.response 200 (some { uid := "u", realm := "/r", scopes := [] }))
        .transport
      = [.callAuthService, .writeAuthorized "u"] := by
  refine ⟨?_, ?_, ?_⟩
  · exact ((filter_scope_check_spec { typ := .checkScope, realm := "", args := ["s1"] }
      "Bearer t".toList "t".toList { uid := "u", realm := "/r", scopes := ["s0", "s1"] }
      (.response 200 (some { uid := "u", realm := "/r", scopes := ["s0", "s1"] }))
      .transport rfl (by decide) rfl rfl).2 (by simp)).1.mpr
      ⟨"s1", by simp, by simp⟩
  · exact ((filter_scope_check_spec { typ := .checkScope, realm := "", args := ["s1"] }
      "Bearer t".toList "t".toList { uid := "u", realm := "/r", scopes := ["s2"] }
      (.response 200 (some { uid := "u", realm := "/r", scopes := ["s2"] }))
      .transport rfl (by decide) rfl rfl).2 (by simp)).2 (by simp)
  · exact (filter_scope_check_spec { typ := .checkScope, realm := "", args := [] }
      "Bearer t".toList "t".toList { uid := "u", realm := "/r", scopes := [] }
      (.response 200 (some { uid := "u", realm := "/r", scopes := [] }))
      .transport rfl (by decide) rfl rfl).1 rfl

/-- C3: in a team-kind filter evaluation that reaches the team check
(token extracted, identity validated, realm passed): with empty
check-values the request is authorized with no call to the team service;
with non-empty check-values the team service is called exactly once, a
team-service failure yields `team-service-access`, and on success the
decision is Authorized iff the check-values and the returned team set
share at least one exactly-equal string, a mismatch yielding
`invalid-team`. -/
theorem filter_team_check_spec (f : Filter) (h t : List Char) (a : AuthDoc)
    (authO : HttpOutcome AuthDoc) (teamO : HttpOutcome (List TeamDoc))
    (htyp : f.typ = .checkTeam) (ht : getToken h = some t)
    (ha : validate authO = .ok a) (hr : validateRealm f a = true) :
    (f.args = [] →
      filterRequest f h authO teamO = [.callAuthService, .writeAuthorized a.uid]) ∧
    (f.args ≠ [] →
      ((filterRequest f h authO teamO).count .callTeamService = 1) ∧
      (∀ e, getTeams teamO = .error e →
        filterRequest f h authO teamO =
          [.callAuthService, .callTeamService,
            .writeUnauthorized a.uid .teamServiceAccess]) ∧
      (∀ teams, getTeams teamO = .ok teams →
        (filterRequest f h authO teamO =
            [.callAuthService, .callTeamService, .writeAuthorized a.uid]
          ↔ ∃ s, s ∈ f.args ∧ s ∈ teams) ∧
        ((¬ ∃ s, s ∈ f.args ∧ s ∈ teams) →
          filterRequest f h authO teamO =
            [.callAuthService, .callTeamService,
              .writeUnauthorized a.uid .invalidTeam]))) := by
  constructor
  · intro hargs
    have hvt : validateTeam f teamO = (true, none, 0) := by
      rw [validateTeam, if_pos (by simp [hargs])]
    unfold filterRequest
    rw [ht, ha, hvt]
    simp [hr, htyp]
  · intro hargs
    have hlen : ¬ f.args.length = 0 := by simpa using hargs
    cases hgt : getTeams teamO with
    | error e0 =>
      have hvt : validateTeam f teamO = (intersect f.args [], some e0, 1) := by
        rw [validateTeam, if_neg hlen, hgt]
      have htr : filterRequest f h authO teamO =
          [.callAuthService, .callTeamService,
            .writeUnauthorized a.uid .teamServiceAccess] := by
        unfold filterRequest
        rw [ht, ha, hvt]
        simp [hr, htyp, List.replicate]
      exact ⟨by rw [htr]; simp [List.count_cons], fun e he => htr,
        fun teams hteams => by cases hteams⟩
    | ok teams0 =>
      have hvt : validateTeam f teamO = (intersect f.args teams0, none, 1) := by
        rw [validateTeam, if_neg hlen, hgt]
      cases hbool : intersect f.args teams0 with
      | false =>
        have hnex : ¬ ∃ s, s ∈ f.args ∧ s ∈ teams0 := by
          intro hex
          rw [(intersect_iff f.args teams0).mpr hex] at hbool
          exact Bool.true_eq_false.mp hbool
        have htr : filterRequest f h authO teamO =
            [.callAuthService, .callTeamService,
              .writeUnauthorized a.uid .invalidTeam] := by
          unfold filterRequest
          rw [ht, ha, hvt]
          simp [hr, htyp, hbool, List.replicate]
        refine ⟨by rw [htr]; simp [List.count_cons],
          fun e he => Except.noConfusion he, fun teams hteams => ?_⟩
        obtain rfl : teams0 = teams := Except.ok.inj hteams
        refine ⟨?_, fun _ => htr⟩
        rw [htr]
        simp [hnex]
      | true =>
        have hex := (intersect_iff f.args teams0).mp hbool
        have htr : filterRequest f h authO teamO =
            [.callAuthService, .callTeamService, .writeAuthorized a.uid] := by
          unfold filterRequest
          rw [ht, ha, hvt]
          simp [hr, htyp, hbool, List.replicate]
        refine ⟨by rw [htr]; simp [List.count_cons],
          fun e he => Except.noConfusion he, fun teams hteams => ?_⟩
        obtain rfl : teams0 = teams := Except.ok.inj hteams
        refine ⟨?_, fun hnex => absurd hex hnex⟩
        rw [htr]
        simp [hex]

/-- Witness for C3: with check-values `["a"]` and returned teams
`["a","b"]` the request is authorized after exactly one team-service
call; with teams `["b"]` it is rejected with `invalid-team`; with a
team-service transport failure it is rejected with
`team-service-access`; with empty check-values the team service is not
called. -/
theorem filter_team_check_spec_witness :
    filterRequest { typ := .checkTeam, realm := "", args := ["a"] }
        "Bearer t".toList
        (.response 200 (some { uid := "u", realm := "/r", scopes := [] }))
        (.response 200 (some [{ id := "a" }, { id := "b" }]))
      = [.callAuthService, .callTeamService, .writeAuthorized "u"] ∧
    filterRequest { typ := .checkTeam, realm := "", args := ["a"] }
        "Bearer t".toList
        (.response 200 (some { uid := "u", realm := "/r", scopes := [] }))
        (.response 200 (some [{ id := "b" }]))
      = [.callAuthService, .callTeamService, .writeUnauthorized "u" .invalidTeam] ∧
    filterRequest { typ := .checkTeam, realm := "", args := ["a"] }
        "Bearer t".toList
        (.response 200 (some { uid := "u", realm := "/r", scopes := [] }))
        .transport
      = [.callAuthService, .callTeamService,
          .writeUnauthorized "u" .teamServiceAccess] ∧
    filterRequest { typ := .checkTeam, realm := "", args := [] }
        "Bearer t".toList
        (.response 200 (some { uid := "u", realm := "/r", scopes := [] }))
        .transport
      = [.callAuthService, .writeAuthorized "u"] := by
  refine ⟨?_, ?_, ?_, ?_⟩
  · exact (((filter_team_check_spec { typ := .checkTeam, realm := "", args := ["a"] }
      "Bearer t".toList "t".toList { uid := "u", realm := "/r", scopes := [] }
      (.response 200 (some { uid := "u", realm := "/r", scopes := [] }))
      (.response 200 (some [{ id := "a" }, { id := "b" }]))
      rfl (by decide) rfl rfl).2 (by simp)).2.2 ["a", "b"] rfl).1.mpr
      ⟨"a", by simp, by simp⟩
  · exact (((filter_team_check_spec { typ := .checkTeam, realm := "", args := ["a"] }
      "Bearer t".toList "t".toList { uid := "u", realm := "/r", scopes := [] }
      (.response 200 (some { uid := "u", realm := "/r", scopes := [] }))
      (.response 200 (some [{ id := "b" }]))
      rfl (by decide) rfl rfl).2 (by simp)).2.2 ["b"] rfl).2 (by simp)
  · exact ((filter_team_check_spec { typ := .checkTeam, realm := "", args := ["a"] }
      "Bearer t".toList "t".toList { uid := "u", realm := "/r", scopes := [] }
      (.response 200 (some { uid := "u", realm := "/r", scopes := [] }))
      .transport rfl (by decide) rfl rfl).2 (by simp)).2.1 .transportErr rfl
  · exact (filter_team_check_spec { typ := .checkTeam, realm := "", args := [] }
      "Bearer t".toList "t".toList { uid := "u", realm := "/r", scopes := [] }
      (.response 200 (some { uid := "u", realm := "/r", scopes := [] }))
      .transport rfl (by decide) rfl rfl).1 rfl

/-- C8: every execution of the filter's request phase performs exactly one
state-bag decision write — the trace is one of the three shapes "write
only", "auth call then write", "auth call, team call, write", so the
write is terminal, never repeated and never overwritten, and the service
calls happen in order before it; moreover an identity-validation failure
is decided before the realm check is consulted, and a realm failure is
decided before the scope/team check. -/
theorem filter_request_single_decision (f : Filter) (h : List Char)
    (authO : HttpOutcome AuthDoc) (teamO : HttpOutcome (List TeamDoc)) :
    (∃ w, w.isWrite = true ∧
      (filterRequest f h authO teamO = [w] ∨
       filterRequest f h authO teamO = [.callAuthService, w] ∨
       filterRequest f h authO teamO = [.callAuthService, .callTeamService, w])) ∧
    ((filterRequest f h authO teamO).filter FilterEvent.isWrite).length = 1 ∧
    (∀ t e, getToken h = some t → validate authO = .error e →
      ∃ r, filterRequest f h authO teamO =
        [.callAuthService, .writeUnauthorized "" r]) ∧
    (∀ t a, getToken h = some t → validate authO = .ok a →
      validateRealm f a = false →
      filterRequest f h authO teamO =
        [.callAuthService, .writeUnauthorized a.uid .invalidRealm]) := by
  have hshape : ∃ w, w.isWrite = true ∧
      (filterRequest f h authO teamO = [w] ∨
       filterRequest f h authO teamO = [.callAuthService, w] ∨
       filterRequest f h authO teamO = [.callAuthService, .callTeamService, w]) := by
    cases hg : getToken h with
    | none =>
      refine ⟨.writeUnauthorized "" .missingBearerToken, rfl, .inl ?_⟩
      unfold filterRequest
      rw [hg]
    | some t =>
      cases ha : validate authO with
      | error e =>
        refine ⟨.writeUnauthorized ""
          (if e = .invalidTokenErr then .invalidToken else .authServiceAccess),
          rfl, .inr (.inl ?_)⟩
        unfold filterRequest
        rw [hg, ha]
      | ok a =>
        cases hr : validateRealm f a with
        | false =>
          refine ⟨.writeUnauthorized a.uid .invalidRealm, rfl, .inr (.inl ?_)⟩
          unfold filterRequest
          rw [hg, ha]
          simp [hr]
        | true =>
          cases hty : f.typ with
          | checkScope =>
            cases hs : validateScope f a with
            | false =>
              refine ⟨.writeUnauthorized a.uid .invalidScope, rfl, .inr (.inl ?_)⟩
              unfold filterRequest
              rw [hg, ha]
              simp [hr, hty, hs]
            | true =>
              refine ⟨.writeAuthorized a.uid, rfl, .inr (.inl ?_)⟩
              unfold filterRequest
              rw [hg, ha]
              simp [hr, hty, hs]
          | checkTeam =>
            by_cases hargs : f.args.length = 0
            · refine ⟨.writeAuthorized a.uid, rfl, .inr (.inl ?_)⟩
              have hvt : validateTeam f teamO = (true, none, 0) := by
                rw [validateTeam, if_pos hargs]
              unfold filterRequest
              rw [hg, ha, hvt]
              simp [hr, hty]
            · cases hgt : getTeams teamO with
              | error e0 =>
                refine ⟨.writeUnauthorized a.uid .teamServiceAccess, rfl,
                  .inr (.inr ?_)⟩
                have hvt : validateTeam f teamO = (intersect f.args [], some e0, 1) := by
                  rw [validateTeam, if_neg hargs, hgt]
                unfold filterRequest
                rw [hg, ha, hvt]
                simp [hr, hty, List.replicate]
              | ok teams0 =>
                cases hbool : intersect f.args teams0 with
                | false =>
                  refine ⟨.writeUnauthorized a.uid .invalidTeam, rfl,
                    .inr (.inr ?_)⟩
                  have hvt : validateTeam f teamO =
                      (intersect f.args teams0, none, 1) := by
                    rw [validateTeam, if_neg hargs, hgt]
                  unfold filterRequest
                  rw [hg, ha, hvt]
                  simp [hr, hty, hbool, List.replicate]
                | true =>
                  refine ⟨.writeAuthorized a.uid, rfl, .inr (.inr ?_)⟩
                  have hvt : validateTeam f teamO =
                      (intersect f.args teams0, none, 1) := by
                    rw [validateTeam, if_neg hargs, hgt]
                  unfold filterRequest
                  rw [hg, ha, hvt]
                  simp [hr, hty, hbool, List.replicate]
  refine ⟨hshape, ?_, ?_, ?_⟩
  · have hc : FilterEvent.isWrite .callAuthService = false := rfl
    have hct : FilterEvent.isWrite .callTeamService = false := rfl
    obtain ⟨w, hw, htr | htr | htr⟩ := hshape <;>
      rw [htr] <;> simp [List.filter_cons, hw, hc, hct]
  · intro t e hg ha
    refine ⟨if e = .invalidTokenErr then .invalidToken else .authServiceAccess, ?_⟩
    unfold filterRequest
    rw [hg, ha]
  · intro t a hg ha hr
    unfold filterRequest
    rw [hg, ha]
    simp [hr]

/-- Witness for C8: the implicational parts applied at concrete inputs —
an identity-service transport failure is decided (with empty user) before
any realm/scope consultation, and a realm mismatch is decided with
`invalid-realm`. -/
theorem filter_request_single_decision_witness :
    (∃ r, filterRequest { typ := .checkScope, realm := "/r", args := ["s"] }
        "Bearer t".toList .transport .transport
      = [.callAuthService, .writeUnauthorized "" r]) ∧
    filterRequest { typ := .checkScope, realm := "/r", args := [] }
        "Bearer t".toList
        (.response 200 (some { uid := "u", realm := "/other", scopes := [] }))
        .transport
      = [.callAuthService, .writeUnauthorized "u" .invalidRealm] := by
  constructor
  · exact (filter_request_single_decision
      { typ := .checkScope, realm := "/r", args := ["s"] }
      "Bearer t".toList .transport .transport).2.2.1
      "t".toList .transportErr (by decide) rfl
  · exact (filter_request_single_decision
      { typ := .checkScope, realm := "/r", args := [] }
      "Bearer t".toList
      (.response 200 (some { uid := "u", realm := "/other", scopes := [] }))
      .transport).2.2.2
      "t".toList { uid := "u", realm := "/other", scopes := [] }
      (by decide) rfl (by decide)

/-- C5: the auth filter itself forwards the request unchanged (it never
mutates the request), and in the single-route deployment the filter chain
removes the `Authorization` header before the backend — the forwarded
headers contain no `Authorization` entry, retain every other header, and
add nothing — unless the preserve-header option is set, in which case the
request reaches the backend fully unchanged. -/
theorem auth_header_removed_spec (preserveHeader : Bool)
    (hs : List (String × String)) :
    (authFilterOnRequest hs = hs) ∧
    (preserveHeader = false →
      (∀ p ∈ singleRouteForwardHeaders preserveHeader hs, p.1 ≠ "Authorization") ∧
      (∀ p ∈ hs, p.1 ≠ "Authorization" →
        p ∈ singleRouteForwardHeaders preserveHeader hs) ∧
      (∀ p ∈ singleRouteForwardHeaders preserveHeader hs, p ∈ hs)) ∧
    (preserveHeader = true → singleRouteForwardHeaders preserveHeader hs = hs) := by
  refine ⟨rfl, ?_, ?_⟩
  · intro hp
    subst hp
    refine ⟨?_, ?_, ?_⟩
    · intro p hp
      have := List.of_mem_filter hp
      simpa using this
    · intro p hp hne
      exact List.mem_filter.mpr ⟨hp, by simpa using hne⟩
    · intro p hp
      exact List.mem_filter.mp hp |>.1
  · intro hp
    subst hp
    simp [singleRouteForwardHeaders, authFilterOnRequest]

/-- Witness for C5: a concrete two-header request with preserve unset
loses exactly its `Authorization` header; with preserve set it is
unchanged. -/
theorem auth_header_removed_spec_witness :
    (("Authorization", "Bearer t") ∈
        ([("Authorization", "Bearer t"), ("Accept", "*")] : List (String × String)) ∧
      ("Accept", "*") ∈ singleRouteForwardHeaders false
        [("Authorization", "Bearer t"), ("Accept", "*")] ∧
      (∀ p ∈ singleRouteForwardHeaders false
        [("Authorization", "Bearer t"), ("Accept", "*")], p.1 ≠ "Authorization")) ∧
    singleRouteForwardHeaders true [("Authorization", "Bearer t"), ("Accept", "*")]
      = [("Authorization", "Bearer t"), ("Accept", "*")] := by
  constructor
  · refine ⟨by simp, ?_, ?_⟩
    · exact (auth_header_removed_spec false
        [("Authorization", "Bearer t"), ("Accept", "*")]).2.1 rfl |>.2.1
        ("Accept", "*") (by simp) (by simp)
    · exact (auth_header_removed_spec false
        [("Authorization", "Bearer t"), ("Accept", "*")]).2.1 rfl |>.1
  · exact (auth_header_removed_spec true
      [("Authorization", "Bearer t"), ("Accept", "*")]).2.2 rfl

/-- C9: the emitted audit record takes method and path from the original
inbound request and status from the final response; the auth-status
sub-record is present iff the state bag holds a non-empty user id or a
non-empty reject reason; the request-body field is present iff a capture
wrapper is installed and its buffer, after the drain, retained at least
one byte. -/
theorem audit_response_spec (reqBody : Option TeeBody) (oreq : OrigRequest)
    (status : Nat) (sb : StateBag) :
    (auditLogResponse reqBody oreq status sb).method = oreq.method ∧
    (auditLogResponse reqBody oreq status sb).path = oreq.path ∧
    (auditLogResponse reqBody oreq status sb).status = status ∧
    ((auditLogResponse reqBody oreq status sb).authStatus.isSome ↔
      (bagString sb.authUser ≠ "" ∨ bagString sb.rejectReason ≠ "")) ∧
    ((auditLogResponse reqBody oreq status sb).requestBody.isSome ↔
      ∃ tb, reqBody = some tb ∧ 0 < (drainTee tb).buffer.length) := by
  refine ⟨rfl, rfl, rfl, ?_, ?_⟩
  · unfold auditLogResponse
    by_cases hau : bagString sb.authUser ≠ "" ∨ bagString sb.rejectReason ≠ "" <;>
      simp [hau]
  · unfold auditLogResponse
    cases reqBody with
    | none => simp
    | some tb =>
      by_cases hb : 0 < (drainTee tb).buffer.length <;> simp [hb]

/-- Closed form of `teeBodyWrite` for unlimited capture. -/
lemma teeBodyWrite_neg (tb : TeeBody) (b : List Nat) (h : tb.maxTee < 0) :
    teeBodyWrite tb b = ({ tb with buffer := tb.buffer ++ b }, b.length, none) := by
  simp [teeBodyWrite, bufferWrite, if_pos h]

/-- The capture invariant: after the wrapper has seen some reads, `k`
bytes of the original stream `B` have been consumed, the remaining stream
is `B.drop k`, the buffer holds the first `min k C.toNat` of the consumed
bytes (all `k` of them for unlimited capture) and the remaining capacity
is the initial cap less the buffered count. -/
def TeeInv (B : List Nat) (C : Int) (k : Nat) (tb : TeeBody) : Prop :=
  k ≤ B.length ∧ tb.body = B.drop k ∧
    ((C < 0 ∧ tb.maxTee = C ∧ tb.buffer = B.take k) ∨
     (0 ≤ C ∧ tb.buffer = B.take (min k C.toNat) ∧
       tb.maxTee = C - min k C.toNat))

/-- One read through the tee preserves the capture invariant. -/
lemma teeBodyRead_inv (B : List Nat) (C : Int) (n : Nat) (tb : TeeBody) (k : Nat)
    (hinv : TeeInv B C k tb) :
    TeeInv B C (k + min n (B.length - k)) ((teeBodyRead tb n).1) := by
  obtain ⟨hk, hbody, hcap⟩ := hinv
  have hdrop : (B.drop k).drop n = B.drop (k + min n (B.length - k)) := by
    rw [List.drop_drop]
    rcases le_or_lt n (B.length - k) with hn | hn
    · rw [min_eq_left hn]
    · rw [List.drop_eq_nil_of_le (by omega), List.drop_eq_nil_of_le (by omega)]
  have hchunk : ((B.drop k).take n).length = min n (B.length - k) := by
    rw [List.length_take, List.length_drop]
  rcases hcap with ⟨hC, hmax, hbuf⟩ | ⟨hC, hbuf, hmax⟩
  · -- unlimited capture
    have hres : (teeBodyRead tb n).1 =
        { body := (B.drop k).drop n, buffer := tb.buffer ++ (B.drop k).take n,
          maxTee := tb.maxTee } := by
      show (teeBodyWrite { tb with body := tb.body.drop n } (tb.body.take n)).1 = _
      rw [teeBodyWrite_neg { tb with body := tb.body.drop n } (tb.body.take n)
        (show tb.maxTee < 0 by rw [hmax]; exact hC), hbody]
    refine ⟨by omega, by rw [hres]; exact hdrop,
      Or.inl ⟨hC, by rw [hres]; exact hmax, ?_⟩⟩
    rw [hres]
    show tb.buffer ++ (B.drop k).take n = B.take (k + min n (B.length - k))
    rw [hbuf, List.take_add]
    congr 1
    rw [List.take_eq_take, List.length_drop]
    omega
  · -- bounded capture
    have hmge : 0 ≤ tb.maxTee := by rw [hmax]; omega
    have hres : (teeBodyRead tb n).1 =
        { body := (B.drop k).drop n,
          buffer := tb.buffer ++
            ((B.drop k).take n).take
              (min ((B.drop k).take n).length tb.maxTee.toNat),
          maxTee := tb.maxTee -
            min ((B.drop k).take n).length tb.maxTee.toNat } := by
      show (teeBodyWrite { tb with body := tb.body.drop n } (tb.body.take n)).1 = _
      rw [teeBodyWrite_nonneg { tb with body := tb.body.drop n } (tb.body.take n) hmge,
        hbody]
    have hr : tb.maxTee.toNat = C.toNat - min k C.toNat := by rw [hmax]; omega
    refine ⟨by omega, by rw [hres]; exact hdrop, Or.inr ⟨hC, ?_, ?_⟩⟩
    · rw [hres]
      show tb.buffer ++
          ((B.drop k).take n).take (min ((B.drop k).take n).length tb.maxTee.toNat)
        = B.take (min (k + min n (B.length - k)) C.toNat)
      rw [hbuf, hchunk, hr, List.take_take]
      rcases le_or_lt C.toNat k with hkm | hkm
      · -- capacity exhausted: nothing more is retained
        have h0 : min (min n (B.length - k)) (C.toNat - min k C.toNat) = 0 := by omega
        rw [h0]
        simp only [Nat.zero_min, List.take_zero, List.append_nil]
        congr 1
        omega
      · -- still capacity left
        have h1 : min k C.toNat = k := by omega
        have h2 : min (k + min n (B.length - k)) C.toNat =
            k + min (min (min n (B.length - k)) (C.toNat - k)) n := by omega
        rw [h1, h2, List.take_add]
    · rw [hres]
      show tb.maxTee - min ((B.drop k).take n).length tb.maxTee.toNat
        = C - min (k + min n (B.length - k)) C.toNat
      rw [hchunk, hr, hmax]
      omega

/-- The capture invariant holds after any sequence of downstream reads. -/
lemma consumeReads_inv (B : List Nat) (C : Int) (rs : List Nat) :
    ∀ (tb : TeeBody) (k : Nat), TeeInv B C k tb →
      ∃ k', TeeInv B C k' (consumeReads tb rs) := by
  induction rs with
  | nil =>
    intro tb k hinv
    exact ⟨k, hinv⟩
  | cons n ns ih =>
    intro tb k hinv
    exact ih _ _ (teeBodyRead_inv B C n tb k hinv)

/-- Draining the unread remainder into the buffer, starting from any
state satisfying the capture invariant, leaves the buffer holding the
whole stream (unlimited) or its first `C.toNat` bytes (bounded). -/
lemma drainTee_of_inv (B : List Nat) (C : Int) (k : Nat) (tb : TeeBody)
    (hinv : TeeInv B C k tb) :
    (drainTee tb).buffer = if C < 0 then B else B.take C.toNat := by
  obtain ⟨hk, hbody, hcap⟩ := hinv
  rcases hcap with ⟨hC, hmax, hbuf⟩ | ⟨hC, hbuf, hmax⟩
  · rw [if_pos hC]
    unfold drainTee
    rw [if_pos (by rw [hmax]; exact hC)]
    show tb.buffer ++ tb.body = B
    rw [hbuf, hbody, List.take_append_drop]
  · rw [if_neg (by omega)]
    unfold drainTee
    rw [if_neg (by rw [hmax]; omega)]
    show tb.buffer ++ tb.body.take tb.maxTee.toNat = B.take C.toNat
    have hr : tb.maxTee.toNat = C.toNat - min k C.toNat := by rw [hmax]; omega
    rw [hbuf, hbody, hr]
    rcases le_or_lt C.toNat k with hkm | hkm
    · have h0 : C.toNat - min k C.toNat = 0 := by omega
      rw [h0]
      simp only [List.take_zero, List.append_nil]
      congr 1
      omega
    · have h1 : min k C.toNat = k := by omega
      have h2 : C.toNat = k + (C.toNat - k) := by omega
      rw [h1, h2, List.take_add]
      congr 2
      omega

/-- C2: whenever the audit filter installs a capture wrapper (cap ≠ 0),
then after the downstream consumer performed an arbitrary sequence of
reads and the response phase drained the unconsumed remainder, the
captured content equals the whole body for unlimited capture (cap < 0)
and exactly the first `min (body length) cap` bytes for a positive cap,
regardless of how much the consumer read; with cap = 0 no wrapper is
installed and nothing is captured. -/
theorem audit_capture_prefix_spec (body : List Nat) (cap : Int) (rs : List Nat) :
    (∀ tb0, auditLogRequest cap body = some tb0 →
      (drainTee (consumeReads tb0 rs)).buffer =
        if cap < 0 then body else body.take cap.toNat) ∧
    (cap = 0 → auditLogRequest cap body = none) := by
  constructor
  · intro tb0 h0
    have htb0 : tb0 = newTeeBody body cap := by
      unfold auditLogRequest at h0
      split_ifs at h0
      exact (Option.some.inj h0).symm
    subst htb0
    have hinv0 : TeeInv body cap 0 (newTeeBody body cap) := by
      refine ⟨Nat.zero_le _, by simp [newTeeBody], ?_⟩
      rcases lt_or_le cap 0 with hC | hC
      · exact Or.inl ⟨hC, rfl, by simp [newTeeBody]⟩
      · exact Or.inr ⟨hC, by simp [newTeeBody], by simp [newTeeBody]⟩
    obtain ⟨k, hinv⟩ := consumeReads_inv body cap rs (newTeeBody body cap) 0 hinv0
    exact drainTee_of_inv body cap k _ hinv
  · intro h0
    simp [auditLogRequest, h0]

/-- Witness for C2: a ten-byte body with cap 4, partially consumed by two
reads and then drained, captures exactly its first four bytes; with cap
−1 it captures everything; with cap 0 no wrapper is installed. -/
theorem audit_capture_prefix_spec_witness :
    (drainTee (consumeReads (newTeeBody [0, 1, 2, 3, 4, 5, 6, 7, 8, 9] 4) [3, 2])).buffer
        = [0, 1, 2, 3] ∧
    (drainTee (consumeReads (newTeeBody [0, 1, 2, 3, 4, 5, 6, 7, 8, 9] (-1)) [3, 2])).buffer
        = [0, 1, 2, 3, 4, 5, 6, 7, 8, 9] ∧
    auditLogRequest 0 [0, 1] = none := by
  refine ⟨?_, ?_, ?_⟩
  · have h := (audit_capture_prefix_spec [0, 1, 2, 3, 4, 5, 6, 7, 8, 9] 4 [3, 2]).1
      (newTeeBody [0, 1, 2, 3, 4, 5, 6, 7, 8, 9] 4) rfl
    rw [h]
    decide
  · have h := (audit_capture_prefix_spec [0, 1, 2, 3, 4, 5, 6, 7, 8, 9] (-1) [3, 2]).1
      (newTeeBody [0, 1, 2, 3, 4, 5, 6, 7, 8, 9] (-1)) rfl
    rw [h]
    decide
  · exact (audit_capture_prefix_spec [0, 1] 0 []).2 rfl

end Skoap
